import Mathlib

/-!
Verification of the activity-scheduling and task-engine core of the
AI_ChatBot repository (files src/bot_activity_manager.py and
src/performance_optimizer.py), as a shallow embedding in Lean 4.

Real-valued quantities of the Python code (rates, factors, energy
levels, load percentages) are modelled as rationals; timestamps as
naturals; the bot-state dictionary as an association list with distinct
keys; calls to random.sample / random.uniform are modelled by explicit
choice parameters constrained by the hypotheses the library guarantees
(a sample is a duplicate-free sublist of the population of the requested
size; uniform(a, b) lies in [a, b]).
-/

/-- Mirrors enum ActivityMode of bot_activity_manager.py. -/
inductive ActivityMode where
  | normal | energetic | calm | sleepy | social | focused
deriving DecidableEq, Repr

/-- Mirrors enum MoodState of bot_activity_manager.py. -/
inductive MoodState where
  | happy | neutral | tired | excited | melancholy
deriving DecidableEq, Repr

/-- Mirrors ActivityState.get_mood_factor: the mood_multipliers table
(dict.get default 1.0 is unreachable: the table covers every variant). -/
def get_mood_factor : MoodState → ℚ
  | .happy => 12/10
  | .excited => 14/10
  | .neutral => 1
  | .tired => 6/10
  | .melancholy => 8/10

/-- Mirrors ActivityState.get_energy_factor:
(energy_level / 100.0) * 1.5 + 0.2. -/
def get_energy_factor (energy_level : ℚ) : ℚ :=
  energy_level / 100 * (15/10) + 2/10

/-- Mirrors the mode_multipliers table inside
ActivityState.get_adjusted_activity_rate (dict.get default 1.0 is
unreachable: the table covers every variant). -/
def mode_multipliers : ActivityMode → ℚ
  | .normal => 1
  | .energetic => 13/10
  | .calm => 8/10
  | .sleepy => 4/10
  | .social => 15/10
  | .focused => 9/10

/-- Mirrors the final clamp max(0.0, min(1.0, x)) used by
get_adjusted_activity_rate. -/
def clamp01 (x : ℚ) : ℚ := max 0 (min 1 x)

/-- Mirrors ActivityState.get_adjusted_activity_rate.  The time factor
(ActivityState.get_current_time_factor, a lookup in the per-agent
activity_patterns table keyed by the wall-clock hour) and the base rate
are passed as parameters; mood, energy and mode determine the remaining
factors exactly as in the source. -/
def get_adjusted_activity_rate (activity_rate time_factor : ℚ)
    (mood : MoodState) (energy_level : ℚ) (mode : ActivityMode) : ℚ :=
  clamp01 (activity_rate * time_factor * get_mood_factor mood *
    get_energy_factor energy_level * mode_multipliers mode)

/-- Modelled from the spec's wording for claim C1: the clamp to [0,1] of
activityRate × timeFactor × moodFactor × energyFactor × modeFactor,
with the mode factors given by the fixed table of the spec sentence
(Normal 1.0, Energetic 1.3, Calm 0.8, Sleepy 0.4, Social 1.5,
Focused 0.9).  Kept separate from the source-side definitions so the two
can be compared. -/
def spec_mode_factor : ActivityMode → ℚ
  | .normal => 1
  | .energetic => 13/10
  | .calm => 8/10
  | .sleepy => 4/10
  | .social => 15/10
  | .focused => 9/10

/-- Modelled from the spec: clamp01 of the five-factor product, the
formula the spec states for getAdjustedActivityRate. -/
def spec_adjusted_activity_rate (activity_rate time_factor : ℚ)
    (mood : MoodState) (energy_level : ℚ) (mode : ActivityMode) : ℚ :=
  max 0 (min 1 (activity_rate * time_factor * get_mood_factor mood *
    get_energy_factor energy_level * spec_mode_factor mode))

/- ------------------------------------------------------------------
Task-retry model for claim C2, from AsyncTaskManager._execute_task of
performance_optimizer.py, specialised to a task whose every execution
attempt times out.  One step is one execution attempt: the except
asyncio.TimeoutError branch records one timeout error, then re-enqueues
the task with retry_count incremented when retry_count < max_retries,
and otherwise drops it (no re-enqueue).
------------------------------------------------------------------ -/

/-- Counters of the always-timing-out task's lifecycle: how many times
the worker has attempted it, how many timeout errors
PerformanceMonitor.record_error has taken, the TaskInfo retry fields,
and whether the task has been dropped (timed out without re-enqueue). -/
structure RetryState where
  attempts : Nat
  timeoutErrors : Nat
  retryCount : Nat
  maxRetries : Nat
  dropped : Bool
deriving DecidableEq, Repr

/-- Mirrors the TaskInfo defaults: retry_count = 0, max_retries as
configured (default 3), before any attempt. -/
def initRetryState (maxRetries : Nat) : RetryState :=
  { attempts := 0, timeoutErrors := 0, retryCount := 0,
    maxRetries := maxRetries, dropped := false }

/-- Mirrors one pass of _execute_task over a task that times out:
record_error('timeout') fires unconditionally in the except branch, then
the task is re-enqueued with retry_count + 1 iff
retry_count < max_retries, else never re-enqueued (dropped). -/
def executeTimeoutOnce (s : RetryState) : RetryState :=
  let s1 := { s with attempts := s.attempts + 1,
                     timeoutErrors := s.timeoutErrors + 1 }
  if s1.retryCount < s1.maxRetries then
    { s1 with retryCount := s1.retryCount + 1 }
  else
    { s1 with dropped := true }

/-- Runs the worker for a number of iterations on the always-timing-out
task: a dropped task is no longer in the queue, so further iterations
leave the state unchanged. -/
def runAlwaysTimeout : Nat → RetryState → RetryState
  | 0, s => s
  | n + 1, s => if s.dropped then s else runAlwaysTimeout n (executeTimeoutOnce s)

/- ------------------------------------------------------------------
Tick model for claim C3, from BotActivityManager.start_management_loop:
a single try block wraps all seven step calls of one tick, and the
except handler logs and sleeps.  A tick is modelled by the list of step
outcomes (true = that step raises an exception that propagates out of
the step), and running it returns how many steps actually started and
whether the exception was caught by the loop-level handler.
------------------------------------------------------------------ -/

/-- Outcome of one tick of start_management_loop: either all steps ran
(completed n, with n the number of steps), or an exception escaped a
step and was caught by the loop-level except handler after n steps had
started (caught n); in both cases the loop sleeps and continues. -/
inductive TickResult where
  | completed (stepsStarted : Nat)
  | caught (stepsStarted : Nat)
deriving DecidableEq, Repr

/-- Helper for runTick carrying the count of steps already started. -/
def runTickAux : Nat → List Bool → TickResult
  | n, [] => .completed n
  | n, raisesExc :: rest =>
    if raisesExc then .caught (n + 1) else runTickAux (n + 1) rest

/-- Mirrors one iteration of the while-true body of
start_management_loop: the steps are executed in order inside one try
block; the first step whose exception propagates aborts the remaining
steps of the tick, and the loop-level except handler catches it. -/
def runTick (steps : List Bool) : TickResult := runTickAux 0 steps

/-- Number of steps that started during the tick. -/
def TickResult.stepsStarted : TickResult → Nat
  | .completed n => n
  | .caught n => n

/- ------------------------------------------------------------------
Agent-state model, from BotActivityManager of bot_activity_manager.py:
bot_states is a dict bot_id -> ActivityState, modelled as an
association list with distinct keys.  Only the ActivityState fields the
claims speak about are carried (is_active, offline_since, energy_level,
mood_state).
------------------------------------------------------------------ -/

/-- Projection of ActivityState to the fields the presence and rotation
claims are about. -/
structure Agent where
  isActive : Bool
  offlineSince : Option Nat
  energy : ℚ
  mood : MoodState
deriving DecidableEq, Repr

/-- The bot_states dictionary: bot_id -> ActivityState. -/
abbrev BotStates := List (String × Agent)

/-- The registered bot ids (dict keys). -/
def botIds (s : BotStates) : List String := s.map Prod.fst

/-- Number of agents with is_active = True - the length of the
active_bots list the rotation and scale-down steps compute. -/
def onlineCount (s : BotStates) : Nat :=
  (s.filter (fun p => p.2.isActive)).length

/-- Whether the agent registered under id is currently active. -/
def isOnline (s : BotStates) (id : String) : Bool :=
  s.any (fun p => p.1 == id && p.2.isActive)

/-- Mirrors an in-place mutation of self.bot_states[bot_id]. -/
def updateBot (id : String) (f : Agent → Agent) (s : BotStates) : BotStates :=
  s.map (fun p => if p.1 == id then (p.1, f p.2) else p)

/-- Dictionary lookup self.bot_states[bot_id]. -/
def lookupBot (s : BotStates) (id : String) : Option Agent :=
  (s.find? (fun p => p.1 == id)).map Prod.snd

/-- Mirrors the state mutations of BotActivityManager._set_bot_offline:
is_active = False and offline_since = now (the Discord presence call,
task stop and database write mutate no ActivityState field). -/
def setOfflineAgent (t : Nat) (a : Agent) : Agent :=
  { a with isActive := false, offlineSince := some t }

/-- Mirrors the state mutations of BotActivityManager._set_bot_online:
is_active = True and offline_since = None. -/
def setOnlineAgent (a : Agent) : Agent :=
  { a with isActive := true, offlineSince := none }

/-- The _set_bot_offline update of the bot_states dictionary. -/
def set_bot_offline (id : String) (t : Nat) (s : BotStates) : BotStates :=
  updateBot id (setOfflineAgent t) s

/-- The _set_bot_online update of the bot_states dictionary. -/
def set_bot_online (id : String) (s : BotStates) : BotStates :=
  updateBot id setOnlineAgent s

/-- Mirrors the ActivityState built by BotActivityManager.register_bot:
is_active = True always, offline_since = None, energy_level = 50.0 and
mood_state = NEUTRAL from ActivityState.__init__. -/
def freshAgent : Agent :=
  { isActive := true, offlineSince := none, energy := 50, mood := .neutral }

/-- The operations of claim C9 that touch is_active / offline_since. -/
inductive PresenceOp where
  | registerBot (id : String)
  | setOffline (id : String) (t : Nat)
  | setOnline (id : String)
deriving DecidableEq, Repr

/-- Applies one presence operation: register_bot assigns a fresh
ActivityState under the id (overwriting any previous entry, as dict
assignment does); the set operations update the entry in place (a no-op
for an unregistered id, which the manager never passes). -/
def applyPresenceOp (s : BotStates) : PresenceOp → BotStates
  | .registerBot id => (id, freshAgent) :: s.filter (fun p => !(p.1 == id))
  | .setOffline id t => set_bot_offline id t s
  | .setOnline id => set_bot_online id s

/-- Applies a sequence of presence operations. -/
def applyPresenceOps (ops : List PresenceOp) (s : BotStates) : BotStates :=
  ops.foldl applyPresenceOp s

/-- The invariant of claim C9 for one agent record. -/
def presenceInv (a : Agent) : Prop := a.isActive = false ↔ a.offlineSince ≠ none

/-- Mirrors the first branch of BotActivityManager._rotate_online_bots
(len(active_bots) > max_online_bots): every id of the random sample
bots_to_offline is taken offline in turn. -/
def rotate_offline_over_max (choice : List String) (t : Nat) (s : BotStates) : BotStates :=
  choice.foldl (fun acc id => set_bot_offline id t acc) s

/-- The observable states of the swap branch of _rotate_online_bots, in
order: the state before the branch, the state after each
_set_bot_offline of active_to_offline, then (after the asyncio.sleep(5)
settle delay) the state after each _set_bot_online of
inactive_to_online.  The scanl lists start with their initial state, so
the state holding during the settle delay appears as the head of the
second list. -/
def swap_branch_states (offChoice onChoice : List String) (t : Nat)
    (s : BotStates) : List BotStates :=
  (offChoice.scanl (fun acc id => set_bot_offline id t acc) s) ++
  (onChoice.scanl (fun acc id => set_bot_online id acc)
    (offChoice.foldl (fun acc id => set_bot_offline id t acc) s))

/-- Mirrors the per-agent mutations of _emergency_scale_down for a
sampled bot: energy_level = max(0, energy_level - 30), mood_state =
TIRED, then _set_bot_offline. -/
def emergencyAgentUpdate (t : Nat) (a : Agent) : Agent :=
  { a with energy := max 0 (a.energy - 30), mood := .tired,
           isActive := false, offlineSince := some t }

/-- Mirrors BotActivityManager._emergency_scale_down: when more than
one agent is active, the random sample bots_to_offline (of size
len(active_bots) // 2) is taken offline with the emergency mutations;
otherwise nothing happens. -/
def emergency_scale_down (choice : List String) (t : Nat) (s : BotStates) : BotStates :=
  if 1 < onlineCount s then
    choice.foldl (fun acc id => updateBot id (emergencyAgentUpdate t) acc) s
  else s

/-- Mirrors PerformanceMonitor.is_critical_load of
bot_activity_manager.py with its critical_load_threshold = 95.0. -/
def is_critical_load (cpu mem : ℚ) : Bool :=
  decide (95 < cpu) || decide (95 < mem)

/-- The attributes the class imported at BotActivityManager.__init__
(from .performance_optimizer import PerformanceMonitor) actually
defines; update, is_high_load and is_critical_load are not among them -
those live only on the PerformanceMonitor class defined inside
bot_activity_manager.py itself, which the constructor does not use. -/
def optimizer_monitor_methods : List String :=
  ["start_monitoring", "stop_monitoring", "record_task_completion",
   "record_error", "get_performance_summary"]

/-- Mirrors BotActivityManager._monitor_performance: it first calls
self.performance_monitor.update(); attribute resolution on the imported
optimizer PerformanceMonitor fails, so the step raises AttributeError
(modelled as none) before the load is ever checked.  Were the attribute
present, the step would check is_critical_load and run the emergency
scale-down. -/
def monitor_performance_step (cpu mem : ℚ) (choice : List String)
    (t : Nat) (s : BotStates) : Option BotStates :=
  if optimizer_monitor_methods.contains "update" then
    some (if is_critical_load cpu mem then emergency_scale_down choice t s else s)
  else none

/- ------------------------------------------------------------------
Energy/social model for claim C7: every mutation of
ActivityState.energy_level and ActivityState.social_factor found in
bot_activity_manager.py, with the random amounts drawn by
random.uniform passed as parameters constrained to the call's range.
------------------------------------------------------------------ -/

/-- The two clamped ActivityState fields of claim C7. -/
structure MoodEnergy where
  energy : ℚ
  social : ℚ
deriving DecidableEq, Repr

/-- One energy_level / social_factor mutation of
bot_activity_manager.py: moodPositive and moodNegative are the
update_mood branches (uniform(2,5) gain, uniform(3,7) loss);
naturalNightTired the nighttime branch of _natural_mood_change (-10);
patternHighSocial / patternLowSocial the _apply_learned_patterns
adjustments (+5 / -2); groupSocial the group-conversation bump of
update_bot_activity (+2); interactionRecover its positive-interaction
recovery (uniform(1,3)); userRecover the on_user_interaction recovery
(uniform(3,8)); spontaneousDrain the on_spontaneous_speech cost
(uniform(1,3)); idleDecay the decay of _update_activity_states
(min(hours*2,10), hence in [0,10]); dailyRecover the daily_reset
recovery (uniform(20,30), applied only when energy < 50);
emergencyDrain the _emergency_scale_down penalty (-30);
forceEnergyChange the arbitrary delta of force_mood_change. -/
inductive EnergyOp where
  | moodPositive (d : ℚ)
  | moodNegative (d : ℚ)
  | naturalNightTired
  | patternHighSocial
  | patternLowSocial
  | groupSocial
  | interactionRecover (d : ℚ)
  | userRecover (d : ℚ)
  | spontaneousDrain (d : ℚ)
  | idleDecay (d : ℚ)
  | dailyRecover (d : ℚ)
  | emergencyDrain
  | forceEnergyChange (d : ℚ)
deriving DecidableEq, Repr

/-- Applies one mutation exactly as the source writes it (each site
clamps with min(100, ...) or max(0, ...), force_mood_change with
both). -/
def applyEnergyOp (st : MoodEnergy) : EnergyOp → MoodEnergy
  | .moodPositive d => { st with energy := min 100 (st.energy + d) }
  | .moodNegative d => { st with energy := max 0 (st.energy - d) }
  | .naturalNightTired => { st with energy := max 0 (st.energy - 10) }
  | .patternHighSocial => { st with social := min 100 (st.social + 5) }
  | .patternLowSocial => { st with social := max 0 (st.social - 2) }
  | .groupSocial => { st with social := min 100 (st.social + 2) }
  | .interactionRecover d => { st with energy := min 100 (st.energy + d) }
  | .userRecover d => { st with energy := min 100 (st.energy + d) }
  | .spontaneousDrain d => { st with energy := max 0 (st.energy - d) }
  | .idleDecay d => { st with energy := max 0 (st.energy - d) }
  | .dailyRecover d =>
    if st.energy < 50 then { st with energy := min 100 (st.energy + d) } else st
  | .emergencyDrain => { st with energy := max 0 (st.energy - 30) }
  | .forceEnergyChange d => { st with energy := max 0 (min 100 (st.energy + d)) }

/-- The range random.uniform guarantees for each mutation's random
amount at its call site (true for the deterministic mutations and for
force_mood_change, whose delta is caller-chosen). -/
def validEnergyOp : EnergyOp → Bool
  | .moodPositive d => decide (2 ≤ d ∧ d ≤ 5)
  | .moodNegative d => decide (3 ≤ d ∧ d ≤ 7)
  | .interactionRecover d => decide (1 ≤ d ∧ d ≤ 3)
  | .userRecover d => decide (3 ≤ d ∧ d ≤ 8)
  | .spontaneousDrain d => decide (1 ≤ d ∧ d ≤ 3)
  | .idleDecay d => decide (0 ≤ d ∧ d ≤ 10)
  | .dailyRecover d => decide (20 ≤ d ∧ d ≤ 30)
  | _ => true

/-- Applies a sequence of mutations. -/
def applyEnergyOps (ops : List EnergyOp) (st : MoodEnergy) : MoodEnergy :=
  ops.foldl applyEnergyOp st

/-- Claim C7's invariant: both fields within [0,100]. -/
def energySocialInRange (st : MoodEnergy) : Prop :=
  0 ≤ st.energy ∧ st.energy ≤ 100 ∧ 0 ≤ st.social ∧ st.social ≤ 100

/- ------------------------------------------------------------------
Priority-queue model for claim C4, from AsyncTaskManager.submit_task
and _worker_loop of performance_optimizer.py.  submit_task enqueues the
tuple (-priority.value, task_id, task_func, args, kwargs, task_info)
into an asyncio.PriorityQueue, whose heap orders entries by Python
tuple comparison: first component, then - for equal first components -
lexicographic comparison of the task_id strings.  Lean's String order
is exactly that code-point lexicographic order, so an entry is modelled
by its first two components. -/

/-- Mirrors enum TaskPriority of performance_optimizer.py. -/
inductive TaskPriority where
  | low | normal | high | critical
deriving DecidableEq, Repr

/-- The .value of each TaskPriority member. -/
def TaskPriority.value : TaskPriority → Int
  | .low => 1
  | .normal => 2
  | .high => 3
  | .critical => 4

/-- Mirrors priority_value = -priority.value of submit_task. -/
def priorityValue (p : TaskPriority) : Int := -p.value

/-- The components of a queue entry that decide its heap position. -/
abbrev QueueEntry := Int × String

/-- Python tuple comparison (restricted to the two deciding
components), the order of the PriorityQueue heap. -/
def entryLE (x y : QueueEntry) : Prop :=
  x.1 < y.1 ∨ (x.1 = y.1 ∧ x.2 ≤ y.2)

instance entryLE.instDecidable (x y : QueueEntry) : Decidable (entryLE x y) :=
  inferInstanceAs (Decidable (x.1 < y.1 ∨ (x.1 = y.1 ∧ x.2 ≤ y.2)))

/-- The smaller of two entries under the heap order. -/
def entryMin (x y : QueueEntry) : QueueEntry := if entryLE x y then x else y

/-- Heap pop: the smallest entry of the queue under tuple comparison,
the entry task_queue.get() hands to the worker next. -/
def dequeueNext : List QueueEntry → Option QueueEntry
  | [] => none
  | x :: xs => some (xs.foldl entryMin x)

/-- Mirrors the task_id generation of submit_task:
f"{task_name}_{int(time.time() * 1000)}". -/
def mkTaskId (name : String) (ms : Nat) : String :=
  name ++ "_" ++ toString ms

/- ------------------------------------------------------------------
Worker model for claim C10, from AsyncTaskManager._worker_loop and
_execute_task of performance_optimizer.py.
------------------------------------------------------------------ -/

/-- Position of the single worker coroutine created by start(): at the
loop head awaiting task_queue.get(), or inside the awaited
_execute_task call. -/
inductive WorkerPC where
  | atLoopHead | executing
deriving DecidableEq, Repr

/-- Engine state as the worker sees it: the pending queue (a task given
by how many steps its body still needs - a long-running task is a large
number), the active_tasks collection, and the worker position. -/
structure EngineState where
  queue : List Nat
  active : List Nat
  pc : WorkerPC
deriving DecidableEq, Repr

/-- Small-step transitions of the worker loop, parameterised by
max_concurrent_tasks (the semaphore capacity): at the loop head the
worker may take the next queued task when a semaphore permit is free
(fewer active tasks than capacity), registering it in active_tasks and
entering _execute_task; inside _execute_task the running task consumes
its steps; when it finishes, the finally block removes it from
active_tasks and the worker returns to the loop head.  No other
transition exists: _worker_loop awaits _execute_task to completion
while holding the permit, before the next task_queue.get(). -/
inductive WorkerStep (maxConcurrent : Nat) : EngineState → EngineState → Prop where
  | dequeue (t : Nat) (q a : List Nat) (h : a.length < maxConcurrent) :
      WorkerStep maxConcurrent ⟨t :: q, a, .atLoopHead⟩ ⟨q, t :: a, .executing⟩
  | work (n : Nat) (q rest : List Nat) :
      WorkerStep maxConcurrent ⟨q, (n + 1) :: rest, .executing⟩ ⟨q, n :: rest, .executing⟩
  | finish (q rest : List Nat) :
      WorkerStep maxConcurrent ⟨q, 0 :: rest, .executing⟩ ⟨q, rest, .atLoopHead⟩

/-- Initial engine state: the submitted tasks pending, active_tasks
empty, worker at the loop head. -/
def initEngine (tasks : List Nat) : EngineState := ⟨tasks, [], .atLoopHead⟩

/-- Auxiliary invariant carried through the reachability induction: at
the loop head nothing is active; while executing, exactly the one task
being awaited is active. -/
def engineInv (s : EngineState) : Prop :=
  (s.pc = .atLoopHead → s.active = []) ∧ s.active.length ≤ 1

/- ==================================================================
Theorems for claims C1, C2, C3.
================================================================== -/

/-- Claim C1 (confirmed): for every combination of base rate, time
factor, mood, energy and activity mode, get_adjusted_activity_rate lies
in [0,1], and it equals the clamp to [0,1] of
activityRate × timeFactor × moodFactor × energyFactor × modeFactor with
the spec's fixed mode-factor table (Normal 1.0, Energetic 1.3, Calm 0.8,
Sleepy 0.4, Social 1.5, Focused 0.9); in particular the code's mode
table agrees with the spec's values. -/
theorem adjusted_activity_rate_in_unit_interval_and_matches_spec
    (activity_rate time_factor : ℚ) (mood : MoodState)
    (energy_level : ℚ) (mode : ActivityMode) :
    0 ≤ get_adjusted_activity_rate activity_rate time_factor mood energy_level mode ∧
    get_adjusted_activity_rate activity_rate time_factor mood energy_level mode ≤ 1 ∧
    get_adjusted_activity_rate activity_rate time_factor mood energy_level mode =
      spec_adjusted_activity_rate activity_rate time_factor mood energy_level mode ∧
    mode_multipliers = spec_mode_factor := by
  refine ⟨le_max_left 0 _, max_le (by norm_num) (min_le_left 1 _), ?_, ?_⟩
  · cases mode <;> rfl
  · funext m; cases m <;> rfl

/-- Claim C2, counterexample: with the default maxRetries = 3, a task
whose every attempt times out ends with four timeout errors recorded by
record_error (one per attempt), not exactly one as the claim states. -/
theorem always_timeout_records_one_error_per_attempt_counterexample :
    (runAlwaysTimeout 4 (initRetryState 3)).timeoutErrors = 4 ∧
    ¬ (runAlwaysTimeout 4 (initRetryState 3)).timeoutErrors = 1 := by
  constructor <;> decide

/-- Helper: a dropped task is never attempted again, whatever the
number of further worker iterations. -/
theorem runAlwaysTimeout_dropped (n : Nat) (s : RetryState)
    (h : s.dropped = true) : runAlwaysTimeout n s = s := by
  cases n with
  | zero => rfl
  | succ m => simp [runAlwaysTimeout, h]

/-- Helper: running the always-timing-out task from retryCount r with
maxRetries m, r + k = m, for k + 1 iterations, attempts it k + 1 more
times, records k + 1 more timeout errors, and drops it. -/
theorem runAlwaysTimeout_progress (k : Nat) : ∀ (a e r m : Nat),
    r + k = m →
    runAlwaysTimeout (k + 1)
      { attempts := a, timeoutErrors := e, retryCount := r,
        maxRetries := m, dropped := false } =
      { attempts := a + (k + 1), timeoutErrors := e + (k + 1),
        retryCount := m, maxRetries := m, dropped := true } := by
  induction k with
  | zero =>
    intro a e r m hrm
    subst hrm
    simp [runAlwaysTimeout, executeTimeoutOnce]
  | succ k ih =>
    intro a e r m hrm
    have hlt : r < m := by omega
    show runAlwaysTimeout (k + 1 + 1) _ = _
    rw [runAlwaysTimeout]
    simp only [executeTimeoutOnce, hlt, if_true, Bool.false_eq_true, if_false]
    have := ih (a + 1) (e + 1) (r + 1) m (by omega)
    simp only [show r + 1 ≤ m from by omega, if_pos hlt] at this ⊢
    rw [this, show a + 1 + (k + 1) = a + (k + 1 + 1) from by omega,
      show e + 1 + (k + 1) = e + (k + 1 + 1) from by omega]

/-- Helper: worker iterations compose. -/
theorem runAlwaysTimeout_add (a : Nat) : ∀ (b : Nat) (s : RetryState),
    runAlwaysTimeout (a + b) s = runAlwaysTimeout b (runAlwaysTimeout a s) := by
  induction a with
  | zero => intro b s; rw [Nat.zero_add]; rfl
  | succ k ih =>
    intro b s
    rw [show k + 1 + b = (k + b) + 1 from by omega]
    by_cases hd : s.dropped = true
    · rw [runAlwaysTimeout_dropped (k + b + 1) s hd,
        runAlwaysTimeout_dropped (k + 1) s hd,
        runAlwaysTimeout_dropped b s hd]
    · have hd' : s.dropped = false := by
        cases h : s.dropped with
        | false => rfl
        | true => exact absurd h hd
      show runAlwaysTimeout (k + b + 1) s = _
      rw [runAlwaysTimeout, runAlwaysTimeout, hd']
      simp only [Bool.false_eq_true, if_false]
      exact ih b (executeTimeoutOnce s)

/-- Claim C2, amended (corrected): a task whose every attempt times out
is attempted exactly maxRetries + 1 times in total, is then dropped and
never resubmitted (further worker iterations change nothing), and one
timeout error is recorded per attempt, maxRetries + 1 in total - not
exactly one. -/
theorem always_timeout_attempts_and_errors (m extra : Nat) :
    runAlwaysTimeout (m + 1 + extra) (initRetryState m) =
      { attempts := m + 1, timeoutErrors := m + 1, retryCount := m,
        maxRetries := m, dropped := true } := by
  have hrun : runAlwaysTimeout (m + 1) (initRetryState m) =
      { attempts := m + 1, timeoutErrors := m + 1, retryCount := m,
        maxRetries := m, dropped := true } := by
    have := runAlwaysTimeout_progress m 0 0 0 m (by omega)
    simpa [initRetryState] using this
  rw [runAlwaysTimeout_add (m + 1) extra, hrun,
    runAlwaysTimeout_dropped extra _ rfl]

/-- Helper: runTickAux on a failure-free prefix counts every step. -/
theorem runTickAux_all_false : ∀ (steps : List Bool) (n : Nat),
    (∀ b ∈ steps, b = false) →
    runTickAux n steps = .completed (n + steps.length) := by
  intro steps
  induction steps with
  | nil => intro n _; simp [runTickAux]
  | cons b rest ih =>
    intro n hall
    have hb : b = false := hall b (List.mem_cons_self b rest)
    subst hb
    have := ih (n + 1) (fun x hx => hall x (List.mem_cons_of_mem false hx))
    simp [runTickAux, this]
    omega

/-- Helper: runTickAux stops at the first raising step. -/
theorem runTickAux_first_failure : ∀ (pre : List Bool) (post : List Bool) (n : Nat),
    (∀ b ∈ pre, b = false) →
    runTickAux n (pre ++ true :: post) = .caught (n + pre.length + 1) := by
  intro pre
  induction pre with
  | nil => intro post n _; simp [runTickAux]
  | cons b rest ih =>
    intro post n hall
    have hb : b = false := hall b (List.mem_cons_self b rest)
    subst hb
    have := ih post (n + 1) (fun x hx => hall x (List.mem_cons_of_mem false hx))
    simp [runTickAux, this]
    omega

/-- Claim C3, counterexample: in a tick of seven steps where the first
step raises, only one step of that tick starts - the remaining six do
not execute, contradicting the claim that steps are independently
fault-isolated within a tick. -/
theorem tick_first_step_failure_skips_rest_counterexample :
    runTick [true, false, false, false, false, false, false] = .caught 1 ∧
    (runTick [true, false, false, false, false, false, false]).stepsStarted ≠ 7 := by
  constructor <;> decide

/-- Claim C3, amended (corrected): an exception in a tick step is
caught by the single loop-level handler and logged, and the loop always
survives to sleep and run the next tick; but within the failing tick the
steps after the first raising step are skipped - only the steps up to
and including it start.  A failure-free tick runs all its steps. -/
theorem tick_catches_failure_and_skips_remaining_steps :
    (∀ (pre post : List Bool), (∀ b ∈ pre, b = false) →
      runTick (pre ++ true :: post) = .caught (pre.length + 1)) ∧
    (∀ steps : List Bool, (∀ b ∈ steps, b = false) →
      runTick steps = .completed steps.length) := by
  constructor
  · intro pre post hall
    have := runTickAux_first_failure pre post 0 hall
    simpa [runTick] using this
  · intro steps hall
    have := runTickAux_all_false steps 0 hall
    simpa [runTick] using this

/-- Witness for the amended C3 theorem: a seven-step tick whose second
step raises is caught with exactly two steps started, and a failure-free
seven-step tick completes all seven steps. -/
theorem tick_catches_failure_witness :
    runTick [false, true, false, false, false, false, false] = .caught 2 ∧
    runTick [false, false, false, false, false, false, false] = .completed 7 :=
  ⟨tick_catches_failure_and_skips_remaining_steps.1 [false]
      [false, false, false, false, false] (by decide),
   tick_catches_failure_and_skips_remaining_steps.2
      [false, false, false, false, false, false, false] (by decide)⟩

/- ==================================================================
Helper lemmas for the agent-state model.
================================================================== -/

/-- Helper: updating an agent in place never changes the set of
registered ids. -/
theorem botIds_updateBot (id : String) (f : Agent → Agent) :
    ∀ s : BotStates, botIds (updateBot id f s) = botIds s := by
  intro s
  induction s with
  | nil => rfl
  | cons p tl ih =>
    cases h : (p.1 == id) with
    | false => simp only [updateBot, botIds, List.map_cons, h, Bool.false_eq_true,
        if_false] at ih ⊢; rw [ih]
    | true => simp only [updateBot, botIds, List.map_cons, h, if_true] at ih ⊢; rw [ih]

/-- Helper: updating an unregistered id is a no-op. -/
theorem updateBot_not_mem (id : String) (f : Agent → Agent) :
    ∀ s : BotStates, id ∉ botIds s → updateBot id f s = s := by
  intro s
  induction s with
  | nil => intro _; rfl
  | cons p tl ih =>
    intro hmem
    simp only [botIds, List.map_cons, List.mem_cons] at hmem
    push_neg at hmem
    have h1 : (p.1 == id) = false := by
      apply beq_eq_false_iff_ne.mpr
      intro he
      exact hmem.1 he.symm
    have h2 := ih (by
      intro hc
      exact hmem.2 (by simpa [botIds] using hc))
    simp only [updateBot, List.map_cons, h1, Bool.false_eq_true, if_false] at h2 ⊢
    exact congrArg (fun l => p :: l) h2

/-- Helper: an unregistered id is not online. -/
theorem isOnline_not_mem (id : String) :
    ∀ s : BotStates, id ∉ botIds s → isOnline s id = false := by
  intro s
  induction s with
  | nil => intro _; rfl
  | cons p tl ih =>
    intro hmem
    simp only [botIds, List.map_cons, List.mem_cons] at hmem
    push_neg at hmem
    have h1 : (p.1 == id) = false := by
      apply beq_eq_false_iff_ne.mpr
      intro he
      exact hmem.1 he.symm
    simp only [isOnline, List.any_cons, h1, Bool.false_and, Bool.false_or]
    exact ih (by
      intro hc
      exact hmem.2 (by simpa [botIds] using hc))

/-- Helper: updating one id leaves every other id's online status
unchanged. -/
theorem isOnline_updateBot_ne (id id' : String) (f : Agent → Agent) (hne : id' ≠ id) :
    ∀ s : BotStates, isOnline (updateBot id f s) id' = isOnline s id' := by
  intro s
  induction s with
  | nil => rfl
  | cons p tl ih =>
    cases h : (p.1 == id) with
    | false =>
      simp only [updateBot, List.map_cons, h, Bool.false_eq_true, if_false,
        isOnline, List.any_cons] at ih ⊢
      rw [ih]
    | true =>
      have hpid : p.1 = id := beq_iff_eq.mp h
      have h' : (p.1 == id') = false := by
        apply beq_eq_false_iff_ne.mpr
        rw [hpid]
        exact fun he => hne he.symm
      simp only [updateBot, List.map_cons, h, if_true, isOnline, List.any_cons, h',
        Bool.false_and, Bool.false_or] at ih ⊢
      exact ih

/-- Helper: onlineCount over a cons cell. -/
theorem onlineCount_cons (p : String × Agent) (tl : BotStates) :
    onlineCount (p :: tl) = (if p.2.isActive then 1 else 0) + onlineCount tl := by
  cases h : p.2.isActive with
  | false => simp [onlineCount, List.filter, h]
  | true => simp [onlineCount, List.filter, h]; omega

/-- Helper: deactivating one registered, currently-online id (with
distinct keys) lowers the online count by exactly one. -/
theorem onlineCount_updateBot_deactivate (g : Agent → Agent)
    (hg : ∀ a, (g a).isActive = false) :
    ∀ (s : BotStates) (id : String), (botIds s).Nodup → isOnline s id = true →
    onlineCount (updateBot id g s) + 1 = onlineCount s := by
  intro s
  induction s with
  | nil => intro id _ hon; simp [isOnline] at hon
  | cons p tl ih =>
    intro id hnod hon
    have hnodc : p.1 ∉ botIds tl ∧ (botIds tl).Nodup := List.nodup_cons.mp hnod
    simp only [isOnline, List.any_cons] at hon
    rw [Bool.or_eq_true] at hon
    rcases hon with hhd | htlon
    · -- the head is the online agent with the updated id
      rw [Bool.and_eq_true] at hhd
      have h : (p.1 == id) = true := hhd.1
      have hact : p.2.isActive = true := hhd.2
      have hpid : p.1 = id := beq_iff_eq.mp h
      have hnotl : id ∉ botIds tl := hpid ▸ hnodc.1
      have htl : updateBot id g tl = tl := updateBot_not_mem id g tl hnotl
      have hstep : updateBot id g (p :: tl) = (p.1, g p.2) :: tl := by
        simp only [updateBot, List.map_cons, h, if_true]
        exact congrArg (fun l => (p.1, g p.2) :: l) htl
      rw [hstep, onlineCount_cons, onlineCount_cons, hg p.2, hact]
      simp only [Bool.false_eq_true, if_false, if_true]
      omega
    · -- the updated id sits in the tail
      have hpne : (p.1 == id) = false := by
        cases hcase : (p.1 == id) with
        | false => rfl
        | true =>
          exfalso
          have hpid : p.1 = id := beq_iff_eq.mp hcase
          have : isOnline tl id = true := htlon
          have hmem : id ∈ botIds tl := by
            by_contra hnm
            rw [isOnline_not_mem id tl hnm] at this
            exact Bool.false_ne_true this
          exact hnodc.1 (hpid ▸ hmem)
      have hstep : updateBot id g (p :: tl) = p :: updateBot id g tl := by
        simp only [updateBot, List.map_cons, hpne, Bool.false_eq_true, if_false]
      rw [hstep, onlineCount_cons, onlineCount_cons]
      have := ih id hnodc.2 htlon
      omega

/-- Helper: deactivating updates never raise the online count (with or
without distinct keys). -/
theorem onlineCount_updateBot_deactivate_le (g : Agent → Agent)
    (hg : ∀ a, (g a).isActive = false) (id : String) :
    ∀ s : BotStates, onlineCount (updateBot id g s) ≤ onlineCount s := by
  intro s
  induction s with
  | nil => exact Nat.le_refl 0
  | cons p tl ih =>
    cases h : (p.1 == id) with
    | true =>
      have hstep : updateBot id g (p :: tl) = (p.1, g p.2) :: updateBot id g tl := by
        simp only [updateBot, List.map_cons, h, if_true]
      rw [hstep, onlineCount_cons, onlineCount_cons, hg p.2]
      simp only [Bool.false_eq_true, if_false]
      cases hact : p.2.isActive <;> simp <;> omega
    | false =>
      have hstep : updateBot id g (p :: tl) = p :: updateBot id g tl := by
        simp only [updateBot, List.map_cons, h, Bool.false_eq_true, if_false]
      rw [hstep, onlineCount_cons, onlineCount_cons]
      omega

/-- Helper: with distinct keys, any in-place update raises the online
count by at most one. -/
theorem onlineCount_updateBot_le_succ (g : Agent → Agent) (id : String) :
    ∀ s : BotStates, (botIds s).Nodup →
    onlineCount (updateBot id g s) ≤ onlineCount s + 1 := by
  intro s
  induction s with
  | nil => intro _; exact Nat.le_succ 0
  | cons p tl ih =>
    intro hnod
    have hnodc : p.1 ∉ botIds tl ∧ (botIds tl).Nodup := List.nodup_cons.mp hnod
    cases h : (p.1 == id) with
    | true =>
      have hpid : p.1 = id := beq_iff_eq.mp h
      have htl : updateBot id g tl = tl := updateBot_not_mem id g tl (hpid ▸ hnodc.1)
      have hstep : updateBot id g (p :: tl) = (p.1, g p.2) :: tl := by
        simp only [updateBot, List.map_cons, h, if_true]
        exact congrArg (fun l => (p.1, g p.2) :: l) htl
      rw [hstep, onlineCount_cons, onlineCount_cons]
      cases hga : (g p.2).isActive <;> cases hact : p.2.isActive <;> simp <;> omega
    | false =>
      have hstep : updateBot id g (p :: tl) = p :: updateBot id g tl := by
        simp only [updateBot, List.map_cons, h, Bool.false_eq_true, if_false]
      rw [hstep, onlineCount_cons, onlineCount_cons]
      have := ih hnodc.2
      omega

/-- Helper: a fold of in-place updates never changes the set of
registered ids. -/
theorem botIds_foldl_updateBot (g : Agent → Agent) :
    ∀ (choice : List String) (s : BotStates),
    botIds (choice.foldl (fun acc id => updateBot id g acc) s) = botIds s := by
  intro choice
  induction choice with
  | nil => intro s; rfl
  | cons h tl ih =>
    intro s
    rw [List.foldl_cons, ih (updateBot h g s), botIds_updateBot]

/-- Helper: folding a deactivating update over a duplicate-free sample
of online ids (keys distinct) lowers the online count by exactly the
sample size. -/
theorem onlineCount_foldl_deactivate (g : Agent → Agent)
    (hg : ∀ a, (g a).isActive = false) :
    ∀ (choice : List String) (s : BotStates),
    (botIds s).Nodup → choice.Nodup → (∀ id ∈ choice, isOnline s id = true) →
    onlineCount (choice.foldl (fun acc id => updateBot id g acc) s) + choice.length
      = onlineCount s := by
  intro choice
  induction choice with
  | nil => intro s _ _ _; simp
  | cons hd tl ih =>
    intro s hnod hcnod hmem
    rw [List.foldl_cons]
    have hcc := List.nodup_cons.mp hcnod
    have hstep := onlineCount_updateBot_deactivate g hg s hd hnod
      (hmem hd (List.mem_cons_self hd tl))
    have hnod' : (botIds (updateBot hd g s)).Nodup := by
      rw [botIds_updateBot]; exact hnod
    have hmem' : ∀ id ∈ tl, isOnline (updateBot hd g s) id = true := by
      intro id hid
      have hne : id ≠ hd := fun he => hcc.1 (he ▸ hid)
      rw [isOnline_updateBot_ne hd id g hne]
      exact hmem id (List.mem_cons_of_mem hd hid)
    have := ih (updateBot hd g s) hnod' hcc.2 hmem'
    simp only [List.length_cons]
    omega

/-- Helper: every state along the offline sub-phase has online count at
most the starting count. -/
theorem onlineCount_scanl_deactivate_le (g : Agent → Agent)
    (hg : ∀ a, (g a).isActive = false) :
    ∀ (choice : List String) (s c : BotStates),
    c ∈ choice.scanl (fun acc id => updateBot id g acc) s →
    onlineCount c ≤ onlineCount s := by
  intro choice
  induction choice with
  | nil =>
    intro s c hc
    rw [List.scanl_nil, List.mem_singleton] at hc
    rw [hc]
  | cons hd tl ih =>
    intro s c hc
    rw [List.scanl_cons, List.singleton_append, List.mem_cons] at hc
    rcases hc with hc | hc
    · rw [hc]
    · have h1 := ih (updateBot hd g s) c hc
      have h2 := onlineCount_updateBot_deactivate_le g hg hd s
      omega

/-- Helper: every state along a scanl of in-place updates (keys
distinct) has online count at most the starting count plus the number
of updates. -/
theorem onlineCount_scanl_le_add (g : Agent → Agent) :
    ∀ (choice : List String) (s c : BotStates), (botIds s).Nodup →
    c ∈ choice.scanl (fun acc id => updateBot id g acc) s →
    onlineCount c ≤ onlineCount s + choice.length := by
  intro choice
  induction choice with
  | nil =>
    intro s c _ hc
    rw [List.scanl_nil, List.mem_singleton] at hc
    rw [hc]
    exact Nat.le_add_right _ 0
  | cons hd tl ih =>
    intro s c hnod hc
    rw [List.scanl_cons, List.singleton_append, List.mem_cons] at hc
    rcases hc with hc | hc
    · rw [hc]; simp
    · have hnod' : (botIds (updateBot hd g s)).Nodup := by
        rw [botIds_updateBot]; exact hnod
      have h1 := ih (updateBot hd g s) c hnod' hc
      have h2 := onlineCount_updateBot_le_succ g hd s hnod
      simp only [List.length_cons]
      omega

/-- Helper: looking up the updated id sees the update applied. -/
theorem lookupBot_updateBot_self (id : String) (f : Agent → Agent) :
    ∀ s : BotStates, lookupBot (updateBot id f s) id = (lookupBot s id).map f := by
  intro s
  induction s with
  | nil => rfl
  | cons p tl ih =>
    cases h : (p.1 == id) with
    | true =>
      have hstep : updateBot id f (p :: tl) = (p.1, f p.2) :: updateBot id f tl := by
        simp only [updateBot, List.map_cons, h, if_true]
      rw [hstep]
      simp [lookupBot, List.find?, h]
    | false =>
      have hstep : updateBot id f (p :: tl) = p :: updateBot id f tl := by
        simp only [updateBot, List.map_cons, h, Bool.false_eq_true, if_false]
      rw [hstep]
      simp only [lookupBot, List.find?, h] at ih ⊢
      exact ih

/-- Helper: looking up a different id never sees the update. -/
theorem lookupBot_updateBot_ne (id id' : String) (f : Agent → Agent) (hne : id' ≠ id) :
    ∀ s : BotStates, lookupBot (updateBot id f s) id' = lookupBot s id' := by
  intro s
  induction s with
  | nil => rfl
  | cons p tl ih =>
    cases h : (p.1 == id) with
    | true =>
      have hpid : p.1 = id := beq_iff_eq.mp h
      have h' : (p.1 == id') = false := by
        apply beq_eq_false_iff_ne.mpr
        rw [hpid]
        exact fun he => hne he.symm
      have hstep : updateBot id f (p :: tl) = (p.1, f p.2) :: updateBot id f tl := by
        simp only [updateBot, List.map_cons, h, if_true]
      rw [hstep]
      simp only [lookupBot, List.find?, h', Bool.false_eq_true] at ih ⊢
      exact ih
    | false =>
      have hstep : updateBot id f (p :: tl) = p :: updateBot id f tl := by
        simp only [updateBot, List.map_cons, h, Bool.false_eq_true, if_false]
      rw [hstep]
      cases h' : (p.1 == id') with
      | true => simp [lookupBot, List.find?, h']
      | false =>
        simp only [lookupBot, List.find?, h', Bool.false_eq_true] at ih ⊢
        exact ih

/-- Helper: a fold of in-place updates over ids not containing id'
leaves id' unchanged. -/
theorem lookupBot_foldl_not_mem (g : Agent → Agent) :
    ∀ (choice : List String) (s : BotStates) (id' : String), id' ∉ choice →
    lookupBot (choice.foldl (fun acc id => updateBot id g acc) s) id' =
      lookupBot s id' := by
  intro choice
  induction choice with
  | nil => intro s id' _; rfl
  | cons hd tl ih =>
    intro s id' hnm
    rw [List.foldl_cons]
    have h1 : id' ∉ tl := fun hm => hnm (List.mem_cons_of_mem hd hm)
    have h2 : id' ≠ hd := fun he => hnm (he ▸ List.mem_cons_self hd tl)
    rw [ih (updateBot hd g s) id' h1, lookupBot_updateBot_ne hd id' g h2]

/-- Helper: a fold of in-place updates over a duplicate-free sample
applies the update exactly once to each sampled id. -/
theorem lookupBot_foldl_mem (g : Agent → Agent) :
    ∀ (choice : List String) (s : BotStates) (id : String),
    choice.Nodup → id ∈ choice →
    lookupBot (choice.foldl (fun acc i => updateBot i g acc) s) id =
      (lookupBot s id).map g := by
  intro choice
  induction choice with
  | nil => intro s id _ hm; exact absurd hm (List.not_mem_nil id)
  | cons hd tl ih =>
    intro s id hnod hm
    have hcc := List.nodup_cons.mp hnod
    rw [List.foldl_cons]
    rcases List.mem_cons.mp hm with he | htl
    · subst he
      rw [lookupBot_foldl_not_mem g tl (updateBot id g s) id hcc.1,
        lookupBot_updateBot_self]
    · have hne : id ≠ hd := fun he => hcc.1 (he ▸ htl)
      rw [ih (updateBot hd g s) id hcc.2 htl, lookupBot_updateBot_ne hd id g hne]

/-- Helper: one presence operation preserves the invariant that
is_active = False exactly when offline_since is set. -/
theorem presenceInv_step (s : BotStates) (op : PresenceOp)
    (h : ∀ p ∈ s, presenceInv p.2) :
    ∀ p ∈ applyPresenceOp s op, presenceInv p.2 := by
  intro p hp
  cases op with
  | registerBot id =>
    simp only [applyPresenceOp, List.mem_cons] at hp
    rcases hp with he | hf
    · rw [he]; simp [presenceInv, freshAgent]
    · exact h p (List.mem_of_mem_filter hf)
  | setOffline id t =>
    simp only [applyPresenceOp, set_bot_offline, updateBot, List.mem_map] at hp
    rcases hp with ⟨q, hq, he⟩
    cases hc : (q.1 == id) with
    | true =>
      rw [hc] at he
      simp only [if_true] at he
      rw [← he]
      simp [presenceInv, setOfflineAgent]
    | false =>
      rw [hc] at he
      simp only [Bool.false_eq_true, if_false] at he
      rw [← he]
      exact h q hq
  | setOnline id =>
    simp only [applyPresenceOp, set_bot_online, updateBot, List.mem_map] at hp
    rcases hp with ⟨q, hq, he⟩
    cases hc : (q.1 == id) with
    | true =>
      rw [hc] at he
      simp only [if_true] at he
      rw [← he]
      simp [presenceInv, setOnlineAgent]
    | false =>
      rw [hc] at he
      simp only [Bool.false_eq_true, if_false] at he
      rw [← he]
      exact h q hq

/-- Helper: a sequence of presence operations preserves the invariant. -/
theorem presenceInv_foldl :
    ∀ (ops : List PresenceOp) (s : BotStates), (∀ p ∈ s, presenceInv p.2) →
    ∀ p ∈ applyPresenceOps ops s, presenceInv p.2 := by
  intro ops
  induction ops with
  | nil => intro s h; exact h
  | cons op tl ih =>
    intro s h
    exact ih (applyPresenceOp s op) (presenceInv_step s op h)

/-- Claim C9 (confirmed): in every agent map reachable from the empty
map through register_bot, _set_bot_online and _set_bot_offline, an
agent has is_active = False exactly when its offline_since is non-null
(register_bot creates agents online with offline_since = None,
_set_bot_offline sets both fields together, _set_bot_online clears both
together). -/
theorem registered_isActive_iff_offlineSince (ops : List PresenceOp) :
    ∀ p ∈ applyPresenceOps ops [],
      p.2.isActive = false ↔ p.2.offlineSince ≠ none := by
  intro p hp
  exact presenceInv_foldl ops []
    (fun q hq => absurd hq (List.not_mem_nil q)) p hp

/-- Witness for the C9 theorem: after registering agent a and taking it
offline at time 5, its record satisfies the invariant. -/
theorem registered_isActive_iff_offlineSince_witness :
    (setOfflineAgent 5 freshAgent).isActive = false ↔
      (setOfflineAgent 5 freshAgent).offlineSince ≠ none :=
  registered_isActive_iff_offlineSince
    [.registerBot "a", .setOffline "a" 5]
    ("a", setOfflineAgent 5 freshAgent) (by decide)

/-- Claim C6 (confirmed): when the rotation step runs with
len(active_bots) > max_online_bots, taking the sampled
(online - max) online ids offline brings the online count to exactly
the max bound, and the agent map keeps every registered agent (only
entries are updated in place, none removed).  The sample hypotheses are
what random.sample(active_bots, num_to_offline) guarantees: a
duplicate-free list of online ids of length onlineCount - max. -/
theorem rotation_over_max_exact (s : BotStates) (choice : List String)
    (t maxB : Nat)
    (hnod : (botIds s).Nodup) (hcnod : choice.Nodup)
    (hmem : ∀ id ∈ choice, isOnline s id = true)
    (hover : maxB < onlineCount s)
    (hlen : choice.length + maxB = onlineCount s) :
    onlineCount (rotate_offline_over_max choice t s) = maxB ∧
    botIds (rotate_offline_over_max choice t s) = botIds s := by
  have hg : ∀ a, (setOfflineAgent t a).isActive = false := fun a => rfl
  have h1 := onlineCount_foldl_deactivate (setOfflineAgent t) hg choice s hnod hcnod hmem
  have h2 := botIds_foldl_updateBot (setOfflineAgent t) choice s
  have he : rotate_offline_over_max choice t s =
      choice.foldl (fun acc id => updateBot id (setOfflineAgent t) acc) s := rfl
  rw [he]
  exact ⟨by omega, h2⟩

/-- Witness for the C6 theorem: three online agents, max bound 2,
sample of one id; afterwards exactly two agents are online and all
three remain registered. -/
theorem rotation_over_max_exact_witness :
    onlineCount (rotate_offline_over_max ["c"] 0
      [("a", freshAgent), ("b", freshAgent), ("c", freshAgent)]) = 2 ∧
    botIds (rotate_offline_over_max ["c"] 0
      [("a", freshAgent), ("b", freshAgent), ("c", freshAgent)]) =
      botIds [("a", freshAgent), ("b", freshAgent), ("c", freshAgent)] :=
  rotation_over_max_exact
    [("a", freshAgent), ("b", freshAgent), ("c", freshAgent)]
    ["c"] 0 2 (by decide) (by decide) (by decide) (by decide) (by decide)

/-- Claim C5 (confirmed): in the swap branch (entered only when the
online count is within the max bound), taking the selected online
agents offline first, waiting the settle delay, and only then bringing
the equally many selected offline agents online keeps the online count
at or below the max bound at every observable instant of the swap - in
particular in the state after the offline sub-step and before the
online sub-step. -/
theorem swap_branch_online_count_bounded (offChoice onChoice : List String)
    (t maxB : Nat) (s : BotStates)
    (hnod : (botIds s).Nodup) (hcnod : offChoice.Nodup)
    (hmem : ∀ id ∈ offChoice, isOnline s id = true)
    (hlen : onChoice.length = offChoice.length)
    (hbound : onlineCount s ≤ maxB) :
    ∀ c ∈ swap_branch_states offChoice onChoice t s, onlineCount c ≤ maxB := by
  intro c hc
  have hg : ∀ a, (setOfflineAgent t a).isActive = false := fun a => rfl
  have hco : swap_branch_states offChoice onChoice t s =
      (offChoice.scanl (fun acc id => updateBot id (setOfflineAgent t) acc) s) ++
      (onChoice.scanl (fun acc id => updateBot id setOnlineAgent acc)
        (offChoice.foldl (fun acc id => updateBot id (setOfflineAgent t) acc) s)) := rfl
  rw [hco, List.mem_append] at hc
  rcases hc with hc | hc
  · have := onlineCount_scanl_deactivate_le (setOfflineAgent t) hg offChoice s c hc
    omega
  · have hnod1 : (botIds (offChoice.foldl
        (fun acc id => updateBot id (setOfflineAgent t) acc) s)).Nodup := by
      rw [botIds_foldl_updateBot]; exact hnod
    have hcount1 := onlineCount_foldl_deactivate (setOfflineAgent t) hg
      offChoice s hnod hcnod hmem
    have hb := onlineCount_scanl_le_add setOnlineAgent onChoice _ c hnod1 hc
    omega

/-- Witness for the C5 theorem: one online and one offline agent,
max bound 1, swapping a for b; the settle-delay state (both offline)
stays within the bound. -/
theorem swap_branch_online_count_bounded_witness :
    onlineCount [("a", setOfflineAgent 1 freshAgent),
                 ("b", setOfflineAgent 0 freshAgent)] ≤ 1 :=
  swap_branch_online_count_bounded ["a"] ["b"] 1 1
    [("a", freshAgent), ("b", setOfflineAgent 0 freshAgent)]
    (by decide) (by decide) (by decide) (by decide) (by decide)
    [("a", setOfflineAgent 1 freshAgent), ("b", setOfflineAgent 0 freshAgent)]
    (by decide)

/-- Claim C8 (code_bug): the emergency-scale-down trigger never fires.
BotActivityManager.__init__ builds self.performance_monitor from the
PerformanceMonitor imported out of performance_optimizer.py, a class
that defines none of update / is_high_load / is_critical_load, so
_monitor_performance raises AttributeError at
self.performance_monitor.update() on every tick, before the load is
checked (first conjunct: the step yields no successor state for any
load sample, even one above the critical threshold).  The cited
_emergency_scale_down logic itself matches the claim, witnessed on the
claim's own example (remaining conjuncts): a critical 96% sample, four
online agents, a sample of floor(4/2) = 2 ids; the scale-down leaves 2
agents online and forces each sampled agent to Tired mood with energy
max(0, e - 30). -/
theorem monitor_step_raises_before_scale_down :
    (∀ (cpu mem : ℚ) (choice : List String) (t : Nat) (s : BotStates),
      monitor_performance_step cpu mem choice t s = none) ∧
    is_critical_load 96 50 = true ∧
    onlineCount (emergency_scale_down ["a", "b"] 7
      [("a", freshAgent), ("b", freshAgent), ("c", freshAgent), ("d", freshAgent)]) = 2 ∧
    lookupBot (emergency_scale_down ["a", "b"] 7
      [("a", freshAgent), ("b", freshAgent), ("c", freshAgent), ("d", freshAgent)]) "a" =
      some (emergencyAgentUpdate 7 freshAgent) ∧
    (emergencyAgentUpdate 7 freshAgent).isActive = false ∧
    (emergencyAgentUpdate 7 freshAgent).mood = MoodState.tired ∧
    (emergencyAgentUpdate 7 freshAgent).energy = 20 := by
  refine ⟨fun cpu mem choice t s => rfl, by decide, by decide, rfl, rfl, rfl, ?_⟩
  show max 0 ((50 : ℚ) - 30) = 20
  rw [show (50 : ℚ) - 30 = 20 from by norm_num]
  exact max_eq_right (by norm_num)

/-- Helper: one energy/social mutation keeps both fields in [0,100]. -/
theorem energyOp_preserves_range (st : MoodEnergy) (op : EnergyOp)
    (hval : validEnergyOp op = true) (h : energySocialInRange st) :
    energySocialInRange (applyEnergyOp st op) := by
  obtain ⟨he0, he1, hs0, hs1⟩ := h
  cases op with
  | moodPositive d =>
    have hd : 2 ≤ d ∧ d ≤ 5 := by simpa [validEnergyOp] using hval
    exact ⟨le_min (by norm_num) (by linarith), min_le_left _ _, hs0, hs1⟩
  | moodNegative d =>
    have hd : 3 ≤ d ∧ d ≤ 7 := by simpa [validEnergyOp] using hval
    exact ⟨le_max_left _ _, max_le (by norm_num) (by linarith), hs0, hs1⟩
  | naturalNightTired =>
    exact ⟨le_max_left _ _, max_le (by norm_num) (by linarith), hs0, hs1⟩
  | patternHighSocial =>
    exact ⟨he0, he1, le_min (by norm_num) (by linarith), min_le_left _ _⟩
  | patternLowSocial =>
    exact ⟨he0, he1, le_max_left _ _, max_le (by norm_num) (by linarith)⟩
  | groupSocial =>
    exact ⟨he0, he1, le_min (by norm_num) (by linarith), min_le_left _ _⟩
  | interactionRecover d =>
    have hd : 1 ≤ d ∧ d ≤ 3 := by simpa [validEnergyOp] using hval
    exact ⟨le_min (by norm_num) (by linarith), min_le_left _ _, hs0, hs1⟩
  | userRecover d =>
    have hd : 3 ≤ d ∧ d ≤ 8 := by simpa [validEnergyOp] using hval
    exact ⟨le_min (by norm_num) (by linarith), min_le_left _ _, hs0, hs1⟩
  | spontaneousDrain d =>
    have hd : 1 ≤ d ∧ d ≤ 3 := by simpa [validEnergyOp] using hval
    exact ⟨le_max_left _ _, max_le (by norm_num) (by linarith), hs0, hs1⟩
  | idleDecay d =>
    have hd : 0 ≤ d ∧ d ≤ 10 := by simpa [validEnergyOp] using hval
    exact ⟨le_max_left _ _, max_le (by norm_num) (by linarith), hs0, hs1⟩
  | dailyRecover d =>
    have hd : 20 ≤ d ∧ d ≤ 30 := by simpa [validEnergyOp] using hval
    show energySocialInRange (if st.energy < 50 then _ else st)
    split_ifs with hlt
    · exact ⟨le_min (by norm_num) (by linarith), min_le_left _ _, hs0, hs1⟩
    · exact ⟨he0, he1, hs0, hs1⟩
  | emergencyDrain =>
    exact ⟨le_max_left _ _, max_le (by norm_num) (by linarith), hs0, hs1⟩
  | forceEnergyChange d =>
    exact ⟨le_max_left _ _,
      max_le (by norm_num) (le_trans (min_le_left _ _) (by norm_num)), hs0, hs1⟩

/-- Helper: a sequence of valid mutations preserves the range. -/
theorem energyOps_preserve_range :
    ∀ (ops : List EnergyOp) (st : MoodEnergy),
    (∀ op ∈ ops, validEnergyOp op = true) → energySocialInRange st →
    energySocialInRange (applyEnergyOps ops st) := by
  intro ops
  induction ops with
  | nil => intro st _ h; exact h
  | cons op tl ih =>
    intro st hval h
    exact ih (applyEnergyOp st op)
      (fun o ho => hval o (List.mem_cons_of_mem op ho))
      (energyOp_preserves_range st op (hval op (List.mem_cons_self op tl)) h)

/-- Claim C7 (confirmed): starting from the constructor values
energy_level = 50, social_factor = 50, after any sequence of
update_mood calls (positive, negative or neutral branches),
pattern-learning adjustments, interaction callbacks, energy decay and
daily resets - each with its random amount in the range
random.uniform guarantees at that call site - energy_level and
social_factor remain within [0,100]: every mutation site clamps with
min(100, .) or max(0, .). -/
theorem energy_social_always_in_range (ops : List EnergyOp)
    (hval : ∀ op ∈ ops, validEnergyOp op = true) :
    energySocialInRange (applyEnergyOps ops ⟨50, 50⟩) :=
  energyOps_preserve_range ops ⟨50, 50⟩ hval
    (by constructor <;> norm_num)

/-- Witness for the C7 theorem: a concrete mixed sequence of mutations
(including the unclamped-delta force_mood_change with -200) keeps both
fields in range. -/
theorem energy_social_always_in_range_witness :
    energySocialInRange (applyEnergyOps
      [.moodPositive 3, .moodNegative 5, .idleDecay 10, .patternLowSocial,
       .dailyRecover 25, .emergencyDrain, .forceEnergyChange (-200)] ⟨50, 50⟩) :=
  energy_social_always_in_range
    [.moodPositive 3, .moodNegative 5, .idleDecay 10, .patternLowSocial,
     .dailyRecover 25, .emergencyDrain, .forceEnergyChange (-200)] (by decide)

/-- Helper: the heap order is reflexive. -/
theorem entryLE_refl (x : QueueEntry) : entryLE x x :=
  Or.inr ⟨rfl, le_refl x.2⟩

/-- Helper: the heap order is total. -/
theorem entryLE_total (x y : QueueEntry) : entryLE x y ∨ entryLE y x := by
  rcases lt_trichotomy x.1 y.1 with h | h | h
  · exact Or.inl (Or.inl h)
  · rcases le_total x.2 y.2 with hs | hs
    · exact Or.inl (Or.inr ⟨h, hs⟩)
    · exact Or.inr (Or.inr ⟨h.symm, hs⟩)
  · exact Or.inr (Or.inl h)

/-- Helper: the heap order is transitive. -/
theorem entryLE_trans (x y z : QueueEntry)
    (h1 : entryLE x y) (h2 : entryLE y z) : entryLE x z := by
  rcases h1 with h1 | ⟨h1e, h1s⟩
  · rcases h2 with h2 | ⟨h2e, h2s⟩
    · exact Or.inl (lt_trans h1 h2)
    · exact Or.inl (h2e ▸ h1)
  · rcases h2 with h2 | ⟨h2e, h2s⟩
    · exact Or.inl (h1e ▸ h2)
    · exact Or.inr ⟨h1e.trans h2e, le_trans h1s h2s⟩

/-- Helper: entryMin returns one of its arguments. -/
theorem entryMin_eq_or (x y : QueueEntry) : entryMin x y = x ∨ entryMin x y = y := by
  unfold entryMin
  split_ifs <;> simp

/-- Helper: entryMin is below its left argument. -/
theorem entryMin_le_left (x y : QueueEntry) : entryLE (entryMin x y) x := by
  unfold entryMin
  split_ifs with h
  · exact entryLE_refl x
  · rcases entryLE_total x y with h1 | h1
    · exact absurd h1 h
    · exact h1

/-- Helper: entryMin is below its right argument. -/
theorem entryMin_le_right (x y : QueueEntry) : entryLE (entryMin x y) y := by
  unfold entryMin
  split_ifs with h
  · exact h
  · exact entryLE_refl y

/-- Helper: the fold of entryMin stays inside seed-plus-queue. -/
theorem foldl_entryMin_mem : ∀ (xs : List QueueEntry) (x : QueueEntry),
    xs.foldl entryMin x ∈ x :: xs := by
  intro xs
  induction xs with
  | nil => intro x; exact List.mem_singleton.mpr rfl
  | cons y ys ih =>
    intro x
    rw [List.foldl_cons]
    have h := ih (entryMin x y)
    rcases List.mem_cons.mp h with h | h
    · rcases entryMin_eq_or x y with he | he
      · rw [h, he]; exact List.mem_cons_self _ _
      · rw [h, he]; exact List.mem_cons_of_mem _ (List.mem_cons_self _ _)
    · exact List.mem_cons_of_mem _ (List.mem_cons_of_mem _ h)

/-- Helper: the fold of entryMin is below the seed and every queued
entry. -/
theorem foldl_entryMin_le : ∀ (xs : List QueueEntry) (x y : QueueEntry),
    y ∈ x :: xs → entryLE (xs.foldl entryMin x) y := by
  intro xs
  induction xs with
  | nil =>
    intro x y hy
    rw [List.mem_singleton] at hy
    subst hy
    exact entryLE_refl y
  | cons z zs ih =>
    intro x y hy
    rw [List.foldl_cons]
    rcases List.mem_cons.mp hy with h | h
    · subst h
      exact entryLE_trans _ _ _
        (ih (entryMin y z) (entryMin y z) (List.mem_cons_self _ _))
        (entryMin_le_left y z)
    · rcases List.mem_cons.mp h with h2 | h2
      · subst h2
        exact entryLE_trans _ _ _
          (ih (entryMin x y) (entryMin x y) (List.mem_cons_self _ _))
          (entryMin_le_right x y)
      · exact ih (entryMin x z) y (List.mem_cons_of_mem _ h2)

/-- Claim C4, counterexample: two pending tasks of equal (Normal)
priority, named b (submitted first, at millisecond 1700000000000) and a
(submitted later, at millisecond 1700000000001), listed in submission
order.  The heap hands the worker the later-submitted task a first,
because equal-priority ties are broken by comparing the task_id strings
and "a_1700000000001" < "b_1700000000000" lexicographically - not by
submission (FIFO) order. -/
theorem equal_priority_not_fifo_counterexample :
    dequeueNext [(priorityValue .normal, mkTaskId "b" 1700000000000),
                 (priorityValue .normal, mkTaskId "a" 1700000000001)] =
      some (priorityValue .normal, mkTaskId "a" 1700000000001) ∧
    mkTaskId "a" 1700000000001 ≠ mkTaskId "b" 1700000000000 := by
  have hb : mkTaskId "b" 1700000000000 = "b_1700000000000" := by decide
  have ha : mkTaskId "a" 1700000000001 = "a_1700000000001" := by decide
  have hlt : ("a_1700000000001" : String) < "b_1700000000000" :=
    String.lt_iff_toList_lt.mpr (by decide)
  have hnle : ¬ entryLE (priorityValue .normal, mkTaskId "b" 1700000000000)
      (priorityValue .normal, mkTaskId "a" 1700000000001) := by
    intro h
    unfold entryLE at h
    rcases h with h | ⟨he, hs⟩
    · exact absurd h (lt_irrefl _)
    · rw [show ((priorityValue TaskPriority.normal, mkTaskId "b" 1700000000000) :
          QueueEntry).2 = mkTaskId "b" 1700000000000 from rfl, hb, ha] at hs
      exact absurd hlt (not_lt.mpr hs)
  constructor
  · show some (entryMin (priorityValue .normal, mkTaskId "b" 1700000000000)
      (priorityValue .normal, mkTaskId "a" 1700000000001)) = _
    unfold entryMin
    rw [if_neg hnle]
  · rw [ha, hb]
    exact ne_of_lt hlt

/-- Claim C4, amended (corrected): the worker's next task is a minimal
queue entry in the heap's tuple order - smaller negated priority value
(that is, higher TaskPriority) first, and among equal priorities the
lexicographically smallest task_id string (f"{name}_{ms}").  This
agrees with submission order only when the earlier-submitted task's id
string happens to be the smaller one (for instance, equal names and
equal-length millisecond timestamps), not in general. -/
theorem dequeue_min_priority_then_id (q : List QueueEntry) (e : QueueEntry)
    (h : dequeueNext q = some e) : e ∈ q ∧ ∀ x ∈ q, entryLE e x := by
  cases q with
  | nil => simp [dequeueNext] at h
  | cons x xs =>
    simp only [dequeueNext, Option.some.injEq] at h
    subst h
    exact ⟨foldl_entryMin_mem xs x, fun y hy => foldl_entryMin_le xs x y hy⟩

/-- Witness for the amended C4 theorem: with a High-priority and a
Normal-priority task pending, the dequeued High entry is below the
Normal entry in the heap order. -/
theorem dequeue_min_priority_then_id_witness :
    entryLE (priorityValue .high, mkTaskId "x" 10)
      (priorityValue .normal, mkTaskId "y" 5) :=
  (dequeue_min_priority_then_id
    [(priorityValue .high, mkTaskId "x" 10),
     (priorityValue .normal, mkTaskId "y" 5)]
    (priorityValue .high, mkTaskId "x" 10) (by decide)).2
    (priorityValue .normal, mkTaskId "y" 5)
    (List.mem_cons_of_mem _ (List.mem_cons_self _ _))

/-- Helper: each worker transition preserves the engine invariant. -/
theorem engineInv_step (maxC : Nat) (s s' : EngineState)
    (hstep : WorkerStep maxC s s') (h : engineInv s) : engineInv s' := by
  cases hstep with
  | dequeue t q a hcap =>
    have ha : a = [] := h.1 rfl
    subst ha
    exact ⟨fun hpc => WorkerPC.noConfusion hpc, by simp⟩
  | work n q rest =>
    exact ⟨fun hpc => WorkerPC.noConfusion hpc, by simpa using h.2⟩
  | finish q rest =>
    have hr : rest = [] := by
      have h2 := h.2
      simp only [List.length_cons] at h2
      exact List.length_eq_zero.mp (by omega)
    subst hr
    exact ⟨fun _ => rfl, by simp⟩

/-- Claim C10 (confirmed): the engine's single worker executes tasks
strictly serially - _worker_loop awaits _execute_task to completion
while holding the semaphore permit before it dequeues again - so in
every state reachable from a fresh engine the active-task set holds at
most one task, whatever the max_concurrent_tasks capacity and however
many long-running tasks were submitted. -/
theorem worker_active_tasks_at_most_one (maxC : Nat) (tasks : List Nat)
    (s : EngineState)
    (h : Relation.ReflTransGen (WorkerStep maxC) (initEngine tasks) s) :
    s.active.length ≤ 1 := by
  have hinv : engineInv s := by
    induction h with
    | refl => exact ⟨fun _ => rfl, by simp [initEngine]⟩
    | tail hab hbc ih => exact engineInv_step maxC _ _ hbc ih
  exact hinv.2

/-- Witness for the C10 theorem: the fresh engine with two long tasks
submitted and capacity 10 has at most one active task. -/
theorem worker_active_tasks_at_most_one_witness :
    (initEngine [5, 7]).active.length ≤ 1 :=
  worker_active_tasks_at_most_one 10 [5, 7] (initEngine [5, 7])
    Relation.ReflTransGen.refl
